import Mathlib

/-!
Verification of the radar-chart rendering core of the wf-var-gh-pages
repository, a shallow embedding of src/js/chart-renderer.js.

Modelling conventions:
- A JS string is a list of UTF-16 units, embedded as `List Char` (`JStr`).
- A JS number is embedded as an exact rational `JNum` (numerator and positive
  denominator, kept unnormalized so every operation is plain Int/Nat
  arithmetic). All numeric values reached by the claims are exactly
  representable, and the host rounding rules of toFixed and of
  toLocaleString with maximumFractionDigits 1 both round the absolute value
  half away from zero, which is what the embedded helpers implement, with
  the en-US grouping/format that the specification examples assume.
- A parsed JSON value is the inductive `JVal`. A JS object literal is an
  insertion-ordered field list, which is the order Object.keys and
  Object.values enumerate for the string-labelled axis keys used here.
- Code that can raise a TypeError is embedded in `Except Unit`; total code
  is embedded as total functions.
-/

namespace WfVar

/-- A JS string: a list of UTF-16 units. -/
abbrev JStr := List Char

/-- Coerce a Lean string literal to the embedded JS string type. -/
def jstr (s : String) : JStr := s.data

/-- A JS number, embedded as the exact rational num/den (den positive,
not necessarily reduced). -/
structure JNum where
  num : Int
  den : Nat
deriving DecidableEq

/-- A parsed JSON/JS value. Object fields are in insertion order. -/
inductive JVal where
  | null
  | undefined
  | bool (b : Bool)
  | num (x : JNum)
  | str (s : JStr)
  | arr (elems : List JVal)
  | obj (fields : List (JStr × JVal))

/-- Test for the value null (the JS strict comparison v === null). -/
def isNullShape : JVal → Bool
  | .null => true
  | _ => false

/-- Test for null or undefined. -/
def isNullOrUndef : JVal → Bool
  | .null => true
  | .undefined => true
  | _ => false

/-- Test for typeof v === the string for strings. -/
def isStrShape : JVal → Bool
  | .str _ => true
  | _ => false

/-- Test for typeof v === the string for numbers. -/
def isNumShape : JVal → Bool
  | .num _ => true
  | _ => false

/-- Test for typeof v === the object type, excluding null: arrays and plain
objects, the shapes on which the JS `in` operator and property access are
safe. -/
def isObjType : JVal → Bool
  | .arr _ => true
  | .obj _ => true
  | _ => false

/-- JS falsiness: null, undefined, false, 0 and the empty string are falsy. -/
def jsFalsy : JVal → Bool
  | .null => true
  | .undefined => true
  | .bool b => !b
  | .num x => x.num = 0
  | .str s => s.isEmpty
  | .arr _ => false
  | .obj _ => false

/-- JS truthiness. -/
def jsTruthy (v : JVal) : Bool := !jsFalsy v

/-- Decimal digits of a Nat, most significant first (fuel-structured so the
kernel evaluates it). -/
def digitsAux : Nat → Nat → List Char
  | 0, _ => []
  | f + 1, n => if n < 10 then [Nat.digitChar n] else digitsAux f (n / 10) ++ [Nat.digitChar (n % 10)]

/-- Decimal digit string of a Nat. -/
def natDigits (n : Nat) : JStr := digitsAux (n + 1) n

/-- Group a digit string given in reverse with a comma every three digits. -/
def groupRev : JStr → JStr
  | a :: b :: c :: d :: rest => a :: b :: c :: ',' :: groupRev (d :: rest)
  | l => l

/-- en-US thousands grouping of a most-significant-first digit string. -/
def groupDigits (ds : JStr) : JStr := (groupRev ds.reverse).reverse

/-- Round the absolute value of x to tenths, half away from zero: the
integer n with n/10 nearest to the absolute value of x (ties upward). -/
def absTenths (x : JNum) : Nat := (20 * x.num.natAbs + x.den) / (2 * x.den)

/-- Embeds Number.prototype.toFixed(1): sign, then the absolute value
rounded to exactly one fractional digit, half away from zero. -/
def toFixed1 (x : JNum) : JStr :=
  let n := absTenths x
  (if x.num < 0 then ['-'] else []) ++ natDigits (n / 10) ++ '.' :: natDigits (n % 10)

/-- Embeds toLocaleString() on an integer-valued number: en-US digit
grouping, no fractional digits. -/
def toLocaleInt (x : JNum) : JStr :=
  let v := x.num / (x.den : Int)
  (if v < 0 then ['-'] else []) ++ groupDigits (natDigits v.natAbs)

/-- Embeds toLocaleString(undefined, maximumFractionDigits 1): en-US
grouping, at most one fractional digit, rounded half away from zero, with a
trailing zero fractional digit dropped. -/
def toLocaleMaxFrac1 (x : JNum) : JStr :=
  let n := absTenths x
  (if x.num < 0 then ['-'] else []) ++ groupDigits (natDigits (n / 10)) ++
    (if n % 10 = 0 then [] else '.' :: natDigits (n % 10))

/-- Number.isInteger: the rational is an integer. -/
def isIntegerJ (x : JNum) : Bool := x.num % (x.den : Int) = 0

/-- String conversion of a JS value (the String() coercion), with fuel for
the nested recursion through arrays; the fuel passed by `jsToString` always
suffices. Array elements join with commas, null and undefined elements
joining as empty, per Array.prototype.toString. Non-integer numbers print
their exact decimal expansion to at most 20 digits, which matches the JS
shortest round-trip form on every decimal-literal value reached here. -/
def jsToStringF : Nat → JVal → JStr
  | 0, _ => []
  | _ + 1, .null => jstr "null"
  | _ + 1, .undefined => jstr "undefined"
  | _ + 1, .bool b => if b then jstr "true" else jstr "false"
  | _ + 1, .num x =>
      (if x.num < 0 then ['-'] else []) ++
      (let a := x.num.natAbs
       natDigits (a / x.den) ++
         (if a % x.den = 0 then [] else '.' :: fracDigits 20 (a % x.den) x.den))
  | _ + 1, .str s => s
  | f + 1, .arr xs =>
      joinList (xs.map fun e => if isNullOrUndef e then [] else jsToStringF f e) (jstr ",")
  | _ + 1, .obj _ => jstr "[object Object]"
where
  /-- Decimal expansion digits of the fraction rem/den, at most `f` of
  them, stopping when the remainder reaches zero. -/
  fracDigits : Nat → Nat → Nat → List Char
    | 0, _, _ => []
    | f + 1, rem, den =>
        if rem = 0 then []
        else Nat.digitChar ((rem * 10) / den) :: fracDigits f ((rem * 10) % den) den
  /-- Join string pieces with a separator. -/
  joinList : List JStr → JStr → JStr
    | [], _ => []
    | [p], _ => p
    | p :: rest, sep => p ++ sep ++ joinList rest sep

/-- String conversion of a JS value. The fuel only limits recursion into
nested arrays: every value whose array-nesting depth is below the bound,
which covers every payload value any claim touches, is converted
exactly. -/
def jsToString (v : JVal) : JStr := jsToStringF 64 v

/-- Field lookup in an embedded object field list (JSON objects have
unique keys, so first match equals JS last-wins semantics). -/
def lookupField : List (JStr × JVal) → JStr → JVal
  | [], _ => .undefined
  | (k, v) :: rest, key => if k = key then v else lookupField rest key

/-- Parse a string as a canonical array index: all digits, no leading
zero except for the index zero itself. -/
def parseIndex (k : JStr) : Option Nat :=
  if ¬ k.isEmpty ∧ k.all Char.isDigit ∧ (k.head? ≠ some '0' ∨ k = ['0']) then
    some (k.foldl (fun acc c => 10 * acc + (c.toNat - 48)) 0)
  else none

/-- JS property access v[k] for the shapes reachable here: object fields,
array length and indices, string length and indices; undefined anywhere
else. Property access never throws on these shapes. -/
def getProp (v : JVal) (k : JStr) : JVal :=
  match v with
  | .obj fs => lookupField fs k
  | .arr xs =>
      if k = jstr "length" then .num ⟨xs.length, 1⟩
      else match parseIndex k with
           | some i => xs.getD i .undefined
           | none => .undefined
  | .str s =>
      if k = jstr "length" then .num ⟨s.length, 1⟩
      else match parseIndex k with
           | some i => if h : i < s.length then .str [s.get ⟨i, h⟩] else .undefined
           | none => .undefined
  | _ => .undefined

/-- The JS `in` operator: key presence on objects and arrays, TypeError on
every other shape. -/
def jsIn (k : JStr) : JVal → Except Unit Bool
  | .obj fs => .ok (fs.any fun kv => kv.1 = k)
  | .arr xs =>
      .ok (k = jstr "length" ||
        match parseIndex k with
        | some i => decide (i < xs.length)
        | none => false)
  | _ => .error ()

/-- Array.prototype.join with a separator: elements are stringified, null
and undefined joining as the empty string. -/
def jsArrayJoin (sep : JStr) : List JVal → JStr
  | [] => []
  | [e] => if isNullOrUndef e then [] else jsToString e
  | e :: rest => (if isNullOrUndef e then [] else jsToString e) ++ sep ++ jsArrayJoin sep rest

/-- Object.keys, raising TypeError on null and undefined: field keys of an
object, index strings of an array or string, empty for other primitives. -/
def objectKeysE : JVal → Except Unit (List JStr)
  | .null => .error ()
  | .undefined => .error ()
  | .obj fs => .ok (fs.map (·.1))
  | .arr xs => .ok ((List.range xs.length).map natDigits)
  | .str s => .ok ((List.range s.length).map natDigits)
  | _ => .ok []

/-- Object.values, raising TypeError on null and undefined. -/
def objectValuesE : JVal → Except Unit (List JVal)
  | .null => .error ()
  | .undefined => .error ()
  | .obj fs => .ok (fs.map (·.2))
  | .arr xs => .ok xs
  | .str s => .ok (s.map fun c => .str [c])
  | _ => .ok []

/-! Embeddings of the chart-renderer.js functions, keeping the source
names. -/

/-- extractDatetime from chart-renderer.js: a bare string passes through;
a non-null value of object type yields its first string-valued member via
Object.values(...).find, defaulting to null; every other shape yields
null. -/
def extractDatetime (payload : JVal) : JVal :=
  if isStrShape payload then payload
  else if !(isObjType payload || isNullShape payload) || isNullShape payload then .null
  else
    match (match objectValuesE payload with | .ok vs => vs | .error _ => []).find? isStrShape with
    | some v => v
    | none => .null

/-- The MAX_LABEL_CHARS constant of chart-renderer.js. -/
def MAX_LABEL_CHARS : Nat := 14

/-- The two return shapes of wrapPointLabel: a single string or a list of
line strings. -/
inductive StrOrLines where
  | one (s : JStr)
  | many (ls : List JStr)

/-- The lines of either return shape. -/
def linesOf : StrOrLines → List JStr
  | .one s => [s]
  | .many ls => ls

/-- JS String.prototype.split on a single space: every occurrence splits,
empty pieces are kept, the empty string splits to one empty piece. -/
def jsSplit : JStr → List JStr
  | [] => [[]]
  | c :: rest =>
      if c = ' ' then [] :: jsSplit rest
      else
        match jsSplit rest with
        | w :: ws => (c :: w) :: ws
        | [] => [[c]]

/-- The candidate line of one packing iteration: the current line extended
with a space and the word, or the bare word when the line is empty. -/
def wrapCandidate (line word : JStr) : JStr :=
  if line.isEmpty then word else line ++ ' ' :: word

/-- One iteration of the word-packing loop of wrapPointLabel: the state is
the built lines and the current line. -/
def wrapStep (st : List JStr × JStr) (word : JStr) : List JStr × JStr :=
  if (wrapCandidate st.2 word).length > MAX_LABEL_CHARS ∧ ¬ st.2.isEmpty then
    (st.1 ++ [st.2], word)
  else (st.1, wrapCandidate st.2 word)

/-- wrapPointLabel from chart-renderer.js: short labels pass through,
longer labels greedily pack space-separated words into lines of at most
MAX_LABEL_CHARS characters. -/
def wrapPointLabel (text : JStr) : StrOrLines :=
  if text.length ≤ MAX_LABEL_CHARS then .one text
  else
    let st := (jsSplit text).foldl wrapStep ([], [])
    .many (if st.2.isEmpty then st.1 else st.1 ++ [st.2])

/-- formatNumber from chart-renderer.js: null and undefined give N/A,
non-numbers are stringified as-is, integer values get locale grouping,
other numbers get the locale form with at most one fractional digit. -/
def formatNumber (value : JVal) : JStr :=
  if isNullOrUndef value then jstr "N/A"
  else match value with
       | .num x => if isIntegerJ x then toLocaleInt x else toLocaleMaxFrac1 x
       | v => jsToString v

/-- The object key for the value field of a raw entry. -/
def valueKey : JStr := jstr "value"

/-- The object key for the metric field of a raw entry. -/
def metricKey : JStr := jstr "metric"

/-- formatRawEntry from chart-renderer.js: null for a falsy entry or a
null/undefined entry value, otherwise the formatted value, suffixed with a
space and the metric exactly when the metric is truthy. -/
def formatRawEntry (entry : JVal) : JVal :=
  if jsFalsy entry || isNullOrUndef (getProp entry valueKey) then .null
  else
    let formatted := formatNumber (getProp entry valueKey)
    if jsTruthy (getProp entry metricKey) then .str (formatted ++ ' ' :: jsToString (getProp entry metricKey))
    else .str formatted

/-- The score line of a tooltip for a given score value. -/
def scoreLineOf (x : JNum) : JStr := jstr "• Score: " ++ toFixed1 x ++ jstr " / 100"

/-- buildTooltipLabel from chart-renderer.js. A null axis short-circuits to
the fixed no-data line; otherwise the score line is built (TypeError when
the score is not a number), and raw detail, when present and formatting to
something truthy, is prepended as the first line. -/
def buildTooltipLabel (label : JStr) (scoreValue : JVal) (isNull : Bool) (rawData : JVal) :
    Except Unit JVal :=
  if isNull then .ok (.str (jstr "No data available"))
  else match scoreValue with
    | .num x =>
        let scoreLine := scoreLineOf x
        if jsFalsy rawData then .ok (.str scoreLine)
        else match jsIn label rawData with
          | .error e => .error e
          | .ok hasKey =>
              if !hasKey then .ok (.str scoreLine)
              else
                let rawEntry := getProp rawData label
                if isNullOrUndef rawEntry then .ok (.str scoreLine)
                else match rawEntry with
                  | .arr entries =>
                      let parts := (entries.map formatRawEntry).filter jsTruthy
                      if parts.length > 0 then
                        .ok (.arr [.str (jstr "• " ++ jsArrayJoin (jstr " | ") parts), .str scoreLine])
                      else .ok (.str scoreLine)
                  | single =>
                      let formatted := formatRawEntry single
                      if jsTruthy formatted then
                        .ok (.arr [.str (jstr "• " ++ jsToString formatted), .str scoreLine])
                      else .ok (.str scoreLine)
    | _ => .error ()

/-- The point color constant COLOR_DATA_POINT. -/
def COLOR_DATA_POINT : JStr := jstr "rgba(59, 130, 246, 1)"

/-- The key of the mandatory data field of a chart payload. -/
def dataKey : JStr := jstr "data"

/-- The key of the optional raw field of a chart payload. -/
def rawKey : JStr := jstr "raw"

/-- The chart configuration that render assembles and passes to the
charting capability: the derived per-axis series, the per-point styling
arrays and the tooltip label callback. Chart.js options that no claim
depends on (colors of grid/fill, scale bounds, the null-baseline plugin
geometry) are not modelled. -/
structure RenderConfig where
  labels : List JStr
  scoreValues : List JVal
  rawData : JVal
  nullFlags : List Bool
  displayValues : List JVal
  pointColors : List JStr
  pointRadii : List JNum
  pointHoverRadii : List JNum
  pointHitRadii : List JNum
  tooltipLabel : Nat → Except Unit JVal

/-- render from chart-renderer.js: derives labels, score values, null
flags, display values and per-point styling from the payload, and wires
the tooltip callback to buildTooltipLabel on the same index order.
Object.keys on a missing data field raises a TypeError. -/
def render (chartData : JVal) : Except Unit RenderConfig :=
  match objectKeysE (getProp chartData dataKey), objectValuesE (getProp chartData dataKey) with
  | .ok labels, .ok scoreValues =>
      let rawData := if jsTruthy (getProp chartData rawKey) then getProp chartData rawKey else .null
      let nullFlags := scoreValues.map isNullShape
      let displayValues := scoreValues.map fun v => if isNullShape v then .num ⟨0, 1⟩ else v
      let pointColors := nullFlags.map fun n => if n then jstr "transparent" else COLOR_DATA_POINT
      let pointRadii : List JNum := nullFlags.map fun n => if n then ⟨0, 1⟩ else ⟨4, 1⟩
      let pointHoverRadii : List JNum := nullFlags.map fun n => if n then ⟨0, 1⟩ else ⟨6, 1⟩
      let pointHitRadii : List JNum := nullFlags.map fun n => if n then ⟨0, 1⟩ else ⟨8, 1⟩
      .ok { labels := labels
            scoreValues := scoreValues
            rawData := rawData
            nullFlags := nullFlags
            displayValues := displayValues
            pointColors := pointColors
            pointRadii := pointRadii
            pointHoverRadii := pointHoverRadii
            pointHitRadii := pointHitRadii
            tooltipLabel := fun i =>
              buildTooltipLabel (labels.getD i []) (scoreValues.getD i .undefined)
                (nullFlags.getD i false) rawData }
  | _, _ => .error ()

/-- Total accessor for the configuration render produces, with an inert
fallback on the error case; used to name concrete configurations. -/
def theRender (chartData : JVal) : RenderConfig :=
  match render chartData with
  | .ok cfg => cfg
  | .error _ => ⟨[], [], .null, [], [], [], [], [], [], fun _ => .error ()⟩

/-! Derived notions used only to state properties, not part of the
source. -/

/-- Join a list of strings with single spaces. -/
def joinSp : List JStr → JStr
  | [] => []
  | [w] => w
  | w :: ws => w ++ ' ' :: joinSp ws

/-- The nonempty space-separated words of a string. -/
def wordsOf (s : JStr) : List JStr := (jsSplit s).filter fun w => !w.isEmpty

/-- A legal wrapped line: within the width limit, or a single word (a line
with no space in it). -/
def lineOK (l : JStr) : Prop := l.length ≤ MAX_LABEL_CHARS ∨ ' ' ∉ l

/-- A raw entry that is well typed per the data model of the chart payload
schema: an object whose value field is a number or null or absent, and
whose metric field is a string or null or absent. -/
def wellTypedRawEntry : JVal → Bool
  | .obj fs =>
      (isNumShape (lookupField fs valueKey) || isNullOrUndef (lookupField fs valueKey)) &&
      (isStrShape (lookupField fs metricKey) || isNullOrUndef (lookupField fs metricKey))
  | _ => false

/-- A concrete payload with one null axis and one zero-scored axis. -/
def payloadNullZero : JVal :=
  .obj [(dataKey, .obj [(jstr "A", .null), (jstr "B", .num ⟨0, 1⟩)])]

/-- A concrete structurally present payload whose single score has the
wrong type (a string instead of number-or-null). -/
def payloadBadScore : JVal :=
  .obj [(dataKey, .obj [(jstr "Fuel", .str (jstr "high"))])]

/-! Shared helper lemmas. -/

theorem isNullShape_true_iff (v : JVal) : isNullShape v = true ↔ v = .null := by
  cases v <;> simp [isNullShape]

theorem isNullShape_false_iff (v : JVal) : isNullShape v = false ↔ v ≠ .null := by
  cases v <;> simp [isNullShape]

theorem getD_map_of_lt {α β : Type} (f : α → β) (l : List α) (i : Nat)
    (h : i < l.length) (d : β) (d' : α) :
    (l.map f).getD i d = f (l.getD i d') := by
  rw [List.getD_eq_getElem _ _ (by simpa using h), List.getD_eq_getElem _ _ h, List.getElem_map]

theorem digitsAux_ne_nil (f n : Nat) : digitsAux (f + 1) n ≠ [] := by
  unfold digitsAux
  split <;> simp

theorem natDigits_ne_nil (n : Nat) : natDigits n ≠ [] := digitsAux_ne_nil n n

theorem groupRev_ne_nil (l : JStr) (h : l ≠ []) : groupRev l ≠ [] := by
  unfold groupRev
  split
  · simp
  · exact h

theorem groupDigits_ne_nil (ds : JStr) (h : ds ≠ []) : groupDigits ds ≠ [] := by
  unfold groupDigits
  simp only [ne_eq, List.reverse_eq_nil_iff]
  exact groupRev_ne_nil _ (by simpa using h)

theorem toLocaleInt_ne_nil (x : JNum) : toLocaleInt x ≠ [] := by
  intro h
  simp only [toLocaleInt, List.append_eq_nil] at h
  exact groupDigits_ne_nil _ (natDigits_ne_nil _) h.2

theorem toLocaleMaxFrac1_ne_nil (x : JNum) : toLocaleMaxFrac1 x ≠ [] := by
  intro h
  simp only [toLocaleMaxFrac1, List.append_eq_nil] at h
  exact groupDigits_ne_nil _ (natDigits_ne_nil _) h.1.2

theorem formatNumber_num_eq (x : JNum) :
    formatNumber (.num x) = if isIntegerJ x = true then toLocaleInt x else toLocaleMaxFrac1 x := rfl

theorem formatNumber_num_ne_nil (x : JNum) : formatNumber (.num x) ≠ [] := by
  rw [formatNumber_num_eq]
  split
  · exact toLocaleInt_ne_nil x
  · exact toLocaleMaxFrac1_ne_nil x

theorem lookupField_undefined_of_any_false (fs : List (JStr × JVal)) (k : JStr)
    (h : (fs.any fun kv => kv.1 = k) = false) : lookupField fs k = .undefined := by
  induction fs with
  | nil => rfl
  | cons kv rest ih =>
    simp only [List.any_cons, Bool.or_eq_false_iff, decide_eq_false_iff_not] at h
    unfold lookupField
    rw [if_neg h.1]
    exact ih h.2

theorem getProp_nonobj (v : JVal) (k : JStr) (hv : isObjType v = false)
    (hk1 : ¬ k = jstr "length") (hk2 : parseIndex k = none) :
    getProp v k = .undefined := by
  cases v <;> simp_all [getProp, isObjType]

/-! Claim C2. -/

/-- C2: for every axis with isNull true, the tooltip text is exactly the
single line with the fixed no-data message, regardless of any raw detail
present for that axis — null always wins over raw detail. -/
theorem c2_null_tooltip (label : JStr) (scoreValue : JVal) (rawData : JVal) :
    buildTooltipLabel label scoreValue true rawData = .ok (.str (jstr "No data available")) := rfl

/-! Claim C5. -/

/-- C5 counterexample: on a two-key object whose second value is a string,
extractDatetime returns that string rather than null, refuting the claim
that every shape other than a bare string or a single-key object with a
string value yields null. -/
theorem c5_extract_counterexample :
    extractDatetime (.obj [(jstr "a", .num ⟨1, 1⟩), (jstr "b", .str (jstr "x"))]) =
      .str (jstr "x") ∧
    extractDatetime (.obj [(jstr "a", .num ⟨1, 1⟩), (jstr "b", .str (jstr "x"))]) ≠ .null :=
  ⟨rfl, fun h => JVal.noConfusion h⟩

/-- C5 amended: extractDatetime returns a bare string payload unchanged;
for any non-null value of object type (objects with any number of keys,
and arrays) it returns the first string-valued member in order, or null
when there is none; every other shape yields null. -/
theorem c5_extract_amended :
    (∀ s : JStr, extractDatetime (.str s) = .str s) ∧
    (∀ k : JStr, ∀ s : JStr, extractDatetime (.obj [(k, .str s)]) = .str s) ∧
    (∀ fs : List (JStr × JVal), extractDatetime (.obj fs) =
        match (fs.map Prod.snd).find? isStrShape with
        | some v => v
        | none => .null) ∧
    (∀ xs : List JVal, extractDatetime (.arr xs) =
        match xs.find? isStrShape with
        | some v => v
        | none => .null) ∧
    extractDatetime .null = .null ∧
    extractDatetime .undefined = .null ∧
    (∀ b : Bool, extractDatetime (.bool b) = .null) ∧
    (∀ x : JNum, extractDatetime (.num x) = .null) :=
  ⟨fun s => rfl, fun k s => rfl, fun fs => rfl, fun xs => rfl, rfl, rfl,
    fun b => rfl, fun x => rfl⟩

/-! Claim C6. -/

/-- C6: formatNumber yields the fixed N/A marker for null or missing
input, the stringified value as-is for non-numeric input, the locale
grouped form with no decimals for integer-valued numbers, and the locale
form capped at one fractional digit with rounding, not truncation, for
non-integer numbers; in particular 26400 formats with a thousands
separator, 3.14159 formats as 3.1 and 2.67 rounds up to 2.7. -/
theorem c6_format_number :
    formatNumber .null = jstr "N/A" ∧
    formatNumber .undefined = jstr "N/A" ∧
    (∀ s : JStr, formatNumber (.str s) = s) ∧
    (∀ b : Bool, formatNumber (.bool b) = jsToString (.bool b)) ∧
    (∀ xs : List JVal, formatNumber (.arr xs) = jsToString (.arr xs)) ∧
    (∀ fs : List (JStr × JVal), formatNumber (.obj fs) = jsToString (.obj fs)) ∧
    (∀ x : JNum, isIntegerJ x = true → formatNumber (.num x) = toLocaleInt x) ∧
    (∀ x : JNum, isIntegerJ x = false → formatNumber (.num x) = toLocaleMaxFrac1 x) ∧
    formatNumber (.num ⟨26400, 1⟩) = jstr "26,400" ∧
    formatNumber (.num ⟨314159, 100000⟩) = jstr "3.1" ∧
    formatNumber (.num ⟨267, 100⟩) = jstr "2.7" ∧
    formatNumber .null = jstr "N/A" :=
  ⟨rfl, rfl, fun s => rfl, fun b => rfl, fun xs => rfl, fun fs => rfl,
    fun x h => by simp [formatNumber, isNullOrUndef, h],
    fun x h => by simp [formatNumber, isNullOrUndef, h],
    rfl, rfl, rfl, rfl⟩

/-- C6 witness: the integer and the non-integer branches at the concrete
specification examples. -/
theorem c6_format_number_witness :
    formatNumber (.num ⟨26400, 1⟩) = toLocaleInt ⟨26400, 1⟩ ∧
    formatNumber (.num ⟨314159, 100000⟩) = toLocaleMaxFrac1 ⟨314159, 100000⟩ :=
  ⟨c6_format_number.2.2.2.2.2.2.1 ⟨26400, 1⟩ rfl,
    c6_format_number.2.2.2.2.2.2.2.1 ⟨314159, 100000⟩ rfl⟩

/-! Claim C7. -/

theorem formatRawEntry_obj_eq (fs : List (JStr × JVal)) :
    formatRawEntry (.obj fs) =
      if isNullOrUndef (lookupField fs valueKey) = true then .null
      else if jsTruthy (lookupField fs metricKey) = true then
        .str (formatNumber (lookupField fs valueKey) ++ ' ' :: jsToString (lookupField fs metricKey))
      else .str (formatNumber (lookupField fs valueKey)) := by
  have h0 : formatRawEntry (.obj fs) =
      if (jsFalsy (.obj fs) || isNullOrUndef (getProp (.obj fs) valueKey)) = true then .null
      else if jsTruthy (getProp (.obj fs) metricKey) = true then
        .str (formatNumber (getProp (.obj fs) valueKey) ++
          ' ' :: jsToString (getProp (.obj fs) metricKey))
      else .str (formatNumber (getProp (.obj fs) valueKey)) := rfl
  rw [h0]
  simp only [jsFalsy, Bool.false_or]
  rfl

/-- C7: formatRawEntry returns null exactly when the entry is null or
undefined or the entry value is null or undefined; otherwise it returns
the formatted value, suffixed with a space and the metric exactly when the
metric is truthy, so an entry whose metric is the empty string gets no
suffix. -/
theorem c7_format_raw_entry :
    (∀ e : JVal, formatRawEntry e = .null ↔
        (isNullOrUndef e = true ∨ isNullOrUndef (getProp e valueKey) = true)) ∧
    (∀ e : JVal, isNullOrUndef e = false → isNullOrUndef (getProp e valueKey) = false →
        formatRawEntry e = .str (formatNumber (getProp e valueKey) ++
          if jsTruthy (getProp e metricKey) = true then
            ' ' :: jsToString (getProp e metricKey)
          else [])) ∧
    (∀ fs : List (JStr × JVal), lookupField fs metricKey = .str [] →
        isNullOrUndef (lookupField fs valueKey) = false →
        formatRawEntry (.obj fs) = .str (formatNumber (lookupField fs valueKey))) := by
  refine ⟨fun e => ?_, fun e h1 h2 => ?_, fun fs hm hv => ?_⟩
  · cases e with
    | null =>
      simp [show formatRawEntry .null = .null from rfl, isNullOrUndef]
    | undefined =>
      simp [show formatRawEntry .undefined = .null from rfl, isNullOrUndef]
    | bool b =>
      simp [formatRawEntry, jsFalsy, show getProp (.bool b) valueKey = .undefined from rfl,
        isNullOrUndef]
    | num x =>
      simp [formatRawEntry, jsFalsy, show getProp (.num x) valueKey = .undefined from rfl,
        isNullOrUndef]
    | str s =>
      simp [formatRawEntry, jsFalsy, show getProp (.str s) valueKey = .undefined from rfl,
        isNullOrUndef]
    | arr xs =>
      simp [formatRawEntry, jsFalsy, show getProp (.arr xs) valueKey = .undefined from rfl,
        isNullOrUndef]
    | obj fs =>
      rw [formatRawEntry_obj_eq]
      have hgp : getProp (.obj fs) valueKey = lookupField fs valueKey := rfl
      by_cases hv : isNullOrUndef (lookupField fs valueKey) = true
      · rw [if_pos hv, hgp, hv]
        simp
      · have hv' : isNullOrUndef (lookupField fs valueKey) = false := by
          cases h : isNullOrUndef (lookupField fs valueKey)
          · rfl
          · exact absurd h hv
        rw [if_neg hv, hgp, hv']
        simp only [show isNullOrUndef (.obj fs) = false from rfl, Bool.false_eq_true, or_self,
          iff_false]
        split <;> exact fun h => JVal.noConfusion h
  · cases e with
    | null => exact absurd h1 (by simp [isNullOrUndef])
    | undefined => exact absurd h1 (by simp [isNullOrUndef])
    | bool b =>
      exact absurd h2 (by simp [show getProp (.bool b) valueKey = .undefined from rfl, isNullOrUndef])
    | num x =>
      exact absurd h2 (by simp [show getProp (.num x) valueKey = .undefined from rfl, isNullOrUndef])
    | str s =>
      exact absurd h2 (by simp [show getProp (.str s) valueKey = .undefined from rfl, isNullOrUndef])
    | arr xs =>
      exact absurd h2 (by simp [show getProp (.arr xs) valueKey = .undefined from rfl, isNullOrUndef])
    | obj fs =>
      rw [formatRawEntry_obj_eq]
      have hgpv : getProp (.obj fs) valueKey = lookupField fs valueKey := rfl
      have hgpm : getProp (.obj fs) metricKey = lookupField fs metricKey := rfl
      have h2' : isNullOrUndef (lookupField fs valueKey) = false := by rw [← hgpv]; exact h2
      rw [if_neg (by simp [h2']), hgpv, hgpm]
      by_cases hmt : jsTruthy (lookupField fs metricKey) = true
      · rw [if_pos hmt, if_pos hmt]
      · rw [if_neg hmt, if_neg hmt, List.append_nil]
  · rw [formatRawEntry_obj_eq, if_neg (by simp [hv]), hm]
    rw [if_neg (by decide)]

/-- C7 witness: a concrete entry with a numeric value and a truthy metric
formats to the value followed by a space and the metric. -/
theorem c7_format_raw_entry_witness :
    formatRawEntry (.obj [(valueKey, .num ⟨12, 1⟩), (metricKey, .str (jstr "bridges"))]) =
      .str (jstr "12 bridges") :=
  (c7_format_raw_entry.2.1
      (.obj [(valueKey, .num ⟨12, 1⟩), (metricKey, .str (jstr "bridges"))]) rfl rfl).trans
    (by rfl)

/-! Claim C3. -/

theorem buildTooltipLabel_num_eq (label : JStr) (x : JNum) (rawData : JVal) :
    buildTooltipLabel label (.num x) false rawData =
      if jsFalsy rawData = true then .ok (.str (scoreLineOf x))
      else match jsIn label rawData with
        | .error e => .error e
        | .ok hasKey =>
            if !hasKey then .ok (.str (scoreLineOf x))
            else
              if isNullOrUndef (getProp rawData label) = true then .ok (.str (scoreLineOf x))
              else match getProp rawData label with
                | .arr entries =>
                    if ((entries.map formatRawEntry).filter jsTruthy).length > 0 then
                      .ok (.arr [.str (jstr "• " ++
                          jsArrayJoin (jstr " | ") ((entries.map formatRawEntry).filter jsTruthy)),
                        .str (scoreLineOf x)])
                    else .ok (.str (scoreLineOf x))
                | single =>
                    if jsTruthy (formatRawEntry single) = true then
                      .ok (.arr [.str (jstr "• " ++ jsToString (formatRawEntry single)),
                        .str (scoreLineOf x)])
                    else .ok (.str (scoreLineOf x)) := rfl

theorem buildTooltipLabel_num_tail (label : JStr) (x : JNum) (rawData : JVal) (hasKey : Bool)
    (hf : jsFalsy rawData = false) (hin : jsIn label rawData = .ok hasKey) :
    buildTooltipLabel label (.num x) false rawData =
      if !hasKey then .ok (.str (scoreLineOf x))
      else
        if isNullOrUndef (getProp rawData label) = true then .ok (.str (scoreLineOf x))
        else match getProp rawData label with
          | .arr entries =>
              if ((entries.map formatRawEntry).filter jsTruthy).length > 0 then
                .ok (.arr [.str (jstr "• " ++
                    jsArrayJoin (jstr " | ") ((entries.map formatRawEntry).filter jsTruthy)),
                  .str (scoreLineOf x)])
              else .ok (.str (scoreLineOf x))
          | single =>
              if jsTruthy (formatRawEntry single) = true then
                .ok (.arr [.str (jstr "• " ++ jsToString (formatRawEntry single)),
                  .str (scoreLineOf x)])
              else .ok (.str (scoreLineOf x)) := by
  rw [buildTooltipLabel_num_eq, if_neg (by simp [hf]), hin]

theorem tooltip_single_shape (x : JNum) (s : JVal) (r : JVal)
    (hok : (if jsTruthy (formatRawEntry s) = true then
        Except.ok (JVal.arr [.str (jstr "• " ++ jsToString (formatRawEntry s)),
          .str (scoreLineOf x)])
      else Except.ok (JVal.str (scoreLineOf x)) : Except Unit JVal) = .ok r) :
    r = .str (scoreLineOf x) ∨
      ∃ firstLine : JStr, r = .arr [.str (jstr "• " ++ firstLine), .str (scoreLineOf x)] := by
  by_cases ht : jsTruthy (formatRawEntry s) = true
  · rw [if_pos ht] at hok
    exact Or.inr ⟨_, (Except.ok.inj hok).symm⟩
  · rw [if_neg ht] at hok
    exact Or.inl (Except.ok.inj hok).symm

theorem tooltip_arr_shape (x : JNum) (entries : List JVal) (r : JVal)
    (hok : (if ((entries.map formatRawEntry).filter jsTruthy).length > 0 then
        Except.ok (JVal.arr [.str (jstr "• " ++
            jsArrayJoin (jstr " | ") ((entries.map formatRawEntry).filter jsTruthy)),
          .str (scoreLineOf x)])
      else Except.ok (JVal.str (scoreLineOf x)) : Except Unit JVal) = .ok r) :
    r = .str (scoreLineOf x) ∨
      ∃ firstLine : JStr, r = .arr [.str (jstr "• " ++ firstLine), .str (scoreLineOf x)] := by
  by_cases hp : ((entries.map formatRawEntry).filter jsTruthy).length > 0
  · rw [if_pos hp] at hok
    exact Or.inr ⟨_, (Except.ok.inj hok).symm⟩
  · rw [if_neg hp] at hok
    exact Or.inl (Except.ok.inj hok).symm

theorem buildTooltipLabel_num_obj_arr (label : JStr) (x : JNum) (rkvs : List (JStr × JVal))
    (entries : List JVal) (hlook : lookupField rkvs label = .arr entries)
    (hany : (rkvs.any fun kv => kv.1 = label) = true) :
    buildTooltipLabel label (.num x) false (.obj rkvs) =
      if ((entries.map formatRawEntry).filter jsTruthy).length > 0 then
        .ok (.arr [.str (jstr "• " ++
            jsArrayJoin (jstr " | ") ((entries.map formatRawEntry).filter jsTruthy)),
          .str (scoreLineOf x)])
      else .ok (.str (scoreLineOf x)) := by
  rw [buildTooltipLabel_num_tail label x (.obj rkvs) true rfl
    (by rw [show jsIn label (JVal.obj rkvs) = .ok (rkvs.any fun kv => kv.1 = label) from rfl, hany])]
  rw [if_neg (by decide)]
  rw [show getProp (.obj rkvs) label = lookupField rkvs label from rfl, hlook]
  rw [if_neg (by simp [isNullOrUndef])]

theorem formatRawEntry_dropped (e : JVal) (h : isNullOrUndef (getProp e valueKey) = true) :
    formatRawEntry e = .null := by
  unfold formatRawEntry
  rw [if_pos (by simp [h])]

theorem formatRawEntry_wellTyped_str (e : JVal) (hwt : wellTypedRawEntry e = true)
    (hv : isNullOrUndef (getProp e valueKey) = false) :
    ∃ s : JStr, formatRawEntry e = .str s ∧ s ≠ [] := by
  cases e with
  | obj fs =>
    have hgp : getProp (.obj fs) valueKey = lookupField fs valueKey := rfl
    have hnum : isNumShape (lookupField fs valueKey) = true := by
      have h1 := (Bool.and_eq_true _ _).mp hwt |>.1
      rcases (Bool.or_eq_true _ _).mp h1 with h | h
      · exact h
      · rw [hgp] at hv; rw [hv] at h; exact absurd h (by simp)
    obtain ⟨y, hy⟩ : ∃ y, lookupField fs valueKey = .num y := by
      cases hl : lookupField fs valueKey <;> simp_all [isNumShape]
    rw [formatRawEntry_obj_eq, if_neg (by rw [← hgp]; simp [hv]), hy]
    by_cases hm : jsTruthy (lookupField fs metricKey) = true
    · refine ⟨_, by rw [if_pos hm], ?_⟩
      simp [formatNumber_num_ne_nil y]
    · exact ⟨_, by rw [if_neg hm], formatNumber_num_ne_nil y⟩
  | null => exact absurd hwt (by simp [wellTypedRawEntry])
  | undefined => exact absurd hwt (by simp [wellTypedRawEntry])
  | bool b => exact absurd hwt (by simp [wellTypedRawEntry])
  | num y => exact absurd hwt (by simp [wellTypedRawEntry])
  | str s => exact absurd hwt (by simp [wellTypedRawEntry])
  | arr xs => exact absurd hwt (by simp [wellTypedRawEntry])

theorem tooltip_parts_eq (entries : List JVal)
    (h : ∀ e ∈ entries, wellTypedRawEntry e = true) :
    (entries.map formatRawEntry).filter jsTruthy =
      (entries.filter fun e => !(isNullOrUndef (getProp e valueKey))).map formatRawEntry := by
  induction entries with
  | nil => rfl
  | cons e rest ih =>
    have he := h e (by simp)
    have hrest : ∀ u ∈ rest, wellTypedRawEntry u = true := fun u hu => h u (by simp [hu])
    rw [List.map_cons, List.filter_cons, List.filter_cons]
    cases hv : isNullOrUndef (getProp e valueKey) with
    | true =>
      rw [formatRawEntry_dropped e hv]
      simp only [hv, Bool.not_true, jsTruthy, jsFalsy, Bool.not_true, Bool.false_eq_true,
        if_false, cond_false]
      exact ih hrest
    | false =>
      obtain ⟨s, hs, hsne⟩ := formatRawEntry_wellTyped_str e he hv
      rw [hs]
      have ht : jsTruthy (.str s) = true := by
        simp [jsTruthy, jsFalsy, List.isEmpty_eq_true, hsne]
      simp only [hv, Bool.not_false, ht, if_true, cond_true, List.map_cons, hs]
      rw [ih hrest]

/-- C3: for a non-null axis the score line is exactly the bullet, the
score to one decimal place and the out-of-100 suffix; when the raw detail
is a sequence, entries whose value is null or undefined are dropped, the
surviving formatted parts are joined with the bar separator and prefixed
with a bullet; if at least one part survives the result is the raw line
followed by the score line, else the score line alone; and whenever both
lines are present the raw line is first and the score line last. -/
theorem c3_tooltip_lines :
    (∀ (x : JNum) (label : JStr) (rawData : JVal) (r : JVal),
        buildTooltipLabel label (.num x) false rawData = .ok r →
        r = .str (scoreLineOf x) ∨
          ∃ firstLine : JStr, r = .arr [.str (jstr "• " ++ firstLine), .str (scoreLineOf x)]) ∧
    (∀ (x : JNum) (label : JStr) (rkvs : List (JStr × JVal)) (entries : List JVal),
        lookupField rkvs label = .arr entries →
        (∀ e ∈ entries, wellTypedRawEntry e = true) →
        buildTooltipLabel label (.num x) false (.obj rkvs) =
          (if ((entries.filter fun e => !(isNullOrUndef (getProp e valueKey))).isEmpty) = true then
            .ok (.str (scoreLineOf x))
          else
            .ok (.arr [.str (jstr "• " ++ jsArrayJoin (jstr " | ")
                ((entries.filter fun e => !(isNullOrUndef (getProp e valueKey))).map formatRawEntry)),
              .str (scoreLineOf x)]))) := by
  constructor
  · intro x label rawData r hok
    by_cases hf : jsFalsy rawData = true
    · rw [buildTooltipLabel_num_eq, if_pos hf] at hok
      exact Or.inl (Except.ok.inj hok).symm
    · have hf' : jsFalsy rawData = false := by
        cases h : jsFalsy rawData
        · rfl
        · exact absurd h hf
      cases hin : jsIn label rawData with
      | error e =>
        rw [buildTooltipLabel_num_eq, if_neg (by simp [hf']), hin] at hok
        exact absurd hok (by simp)
      | ok hasKey =>
        rw [buildTooltipLabel_num_tail label x rawData hasKey hf' hin] at hok
        cases hasKey with
        | false =>
          rw [if_pos (by decide)] at hok
          exact Or.inl (Except.ok.inj hok).symm
        | true =>
          rw [if_neg (by decide)] at hok
          by_cases hnu : isNullOrUndef (getProp rawData label) = true
          · rw [if_pos hnu] at hok
            exact Or.inl (Except.ok.inj hok).symm
          · rw [if_neg hnu] at hok
            cases hgp : getProp rawData label with
            | arr entries =>
              rw [hgp] at hok
              exact tooltip_arr_shape x entries r hok
            | null => exact absurd (by rw [hgp]; rfl) hnu
            | undefined => exact absurd (by rw [hgp]; rfl) hnu
            | bool b =>
              rw [hgp] at hok
              exact tooltip_single_shape x (.bool b) r hok
            | num y =>
              rw [hgp] at hok
              exact tooltip_single_shape x (.num y) r hok
            | str s =>
              rw [hgp] at hok
              exact tooltip_single_shape x (.str s) r hok
            | obj fs =>
              rw [hgp] at hok
              exact tooltip_single_shape x (.obj fs) r hok
  · intro x label rkvs entries hlook hwt
    have hany : (rkvs.any fun kv => kv.1 = label) = true := by
      cases h : rkvs.any fun kv => kv.1 = label
      · have := lookupField_undefined_of_any_false rkvs label h
        rw [hlook] at this
        exact JVal.noConfusion this
      · rfl
    rw [buildTooltipLabel_num_obj_arr label x rkvs entries hlook hany]
    rw [tooltip_parts_eq entries hwt]
    by_cases hs : (entries.filter fun e => !(isNullOrUndef (getProp e valueKey))) = []
    · rw [hs]
      simp
    · rw [if_pos (by simp [List.length_pos, hs]), if_neg (by simp [hs])]

/-- C3 witness: the specification example with one surviving raw part and
one dropped null sub-entry produces the raw line first and the score line
last. -/
theorem c3_tooltip_lines_witness :
    buildTooltipLabel (jstr "A") (.num ⟨50, 1⟩) false
        (.obj [(jstr "A", .arr [.obj [(valueKey, .num ⟨12, 1⟩), (metricKey, .str (jstr "bridges"))],
          .obj [(valueKey, .null), (metricKey, .str (jstr "tunnels"))]])]) =
      .ok (.arr [.str (jstr "• 12 bridges"), .str (jstr "• Score: 50.0 / 100")]) :=
  (c3_tooltip_lines.2 ⟨50, 1⟩ (jstr "A")
      [(jstr "A", .arr [.obj [(valueKey, .num ⟨12, 1⟩), (metricKey, .str (jstr "bridges"))],
        .obj [(valueKey, .null), (metricKey, .str (jstr "tunnels"))]])]
      [.obj [(valueKey, .num ⟨12, 1⟩), (metricKey, .str (jstr "bridges"))],
        .obj [(valueKey, .null), (metricKey, .str (jstr "tunnels"))]]
      rfl (by decide)).trans (by rfl)

/-! Claims C1, C8 and C9: the render configuration. -/

theorem render_eq_ok (chartData : JVal) (labels : List JStr) (vals : List JVal)
    (hk : objectKeysE (getProp chartData dataKey) = .ok labels)
    (hv : objectValuesE (getProp chartData dataKey) = .ok vals) :
    render chartData = .ok
      { labels := labels
        scoreValues := vals
        rawData := if jsTruthy (getProp chartData rawKey) = true then getProp chartData rawKey
          else .null
        nullFlags := vals.map isNullShape
        displayValues := vals.map fun v => if isNullShape v = true then .num ⟨0, 1⟩ else v
        pointColors := (vals.map isNullShape).map fun n =>
          if n = true then jstr "transparent" else COLOR_DATA_POINT
        pointRadii := (vals.map isNullShape).map fun n =>
          if n = true then (⟨0, 1⟩ : JNum) else ⟨4, 1⟩
        pointHoverRadii := (vals.map isNullShape).map fun n =>
          if n = true then (⟨0, 1⟩ : JNum) else ⟨6, 1⟩
        pointHitRadii := (vals.map isNullShape).map fun n =>
          if n = true then (⟨0, 1⟩ : JNum) else ⟨8, 1⟩
        tooltipLabel := fun i =>
          buildTooltipLabel (labels.getD i []) (vals.getD i .undefined)
            ((vals.map isNullShape).getD i false)
            (if jsTruthy (getProp chartData rawKey) = true then getProp chartData rawKey
              else .null) } := by
  unfold render
  rw [hk, hv]

theorem render_ok_inv (chartData : JVal) (cfg : RenderConfig)
    (hok : render chartData = .ok cfg) :
    ∃ labels vals, objectKeysE (getProp chartData dataKey) = .ok labels ∧
      objectValuesE (getProp chartData dataKey) = .ok vals ∧
      cfg = { labels := labels
              scoreValues := vals
              rawData := if jsTruthy (getProp chartData rawKey) = true then
                getProp chartData rawKey else .null
              nullFlags := vals.map isNullShape
              displayValues := vals.map fun v => if isNullShape v = true then .num ⟨0, 1⟩ else v
              pointColors := (vals.map isNullShape).map fun n =>
                if n = true then jstr "transparent" else COLOR_DATA_POINT
              pointRadii := (vals.map isNullShape).map fun n =>
                if n = true then (⟨0, 1⟩ : JNum) else ⟨4, 1⟩
              pointHoverRadii := (vals.map isNullShape).map fun n =>
                if n = true then (⟨0, 1⟩ : JNum) else ⟨6, 1⟩
              pointHitRadii := (vals.map isNullShape).map fun n =>
                if n = true then (⟨0, 1⟩ : JNum) else ⟨8, 1⟩
              tooltipLabel := fun i =>
                buildTooltipLabel (labels.getD i []) (vals.getD i .undefined)
                  ((vals.map isNullShape).getD i false)
                  (if jsTruthy (getProp chartData rawKey) = true then
                    getProp chartData rawKey else .null) } := by
  cases hk : objectKeysE (getProp chartData dataKey) with
  | error e =>
    exfalso
    unfold render at hok
    rw [hk] at hok
    simp at hok
  | ok labels =>
    cases hv : objectValuesE (getProp chartData dataKey) with
    | error e =>
      exfalso
      unfold render at hok
      rw [hk, hv] at hok
      simp at hok
    | ok vals =>
      exact ⟨labels, vals, rfl, rfl,
        (Except.ok.inj ((render_eq_ok chartData labels vals hk hv).symm.trans hok)).symm⟩

theorem map_if_getD (vals : List JVal) (i : Nat) (h : i < vals.length) {β : Type}
    (a b : β) (dflt : β) :
    ((vals.map isNullShape).map fun n => if n = true then a else b).getD i dflt =
      if isNullShape (vals.getD i .undefined) = true then a else b := by
  rw [getD_map_of_lt _ (vals.map isNullShape) i (by simpa using h) _ false,
    getD_map_of_lt _ vals i h _ .undefined]

theorem map_display_getD (vals : List JVal) (i : Nat) (h : i < vals.length) :
    (vals.map fun v => if isNullShape v = true then JVal.num ⟨0, 1⟩ else v).getD i .undefined =
      if isNullShape (vals.getD i .undefined) = true then JVal.num ⟨0, 1⟩
      else vals.getD i .undefined := by
  rw [getD_map_of_lt _ vals i h _ .undefined]

/-- C1: for every axis whose score is null, render configures display
value zero, fully transparent point background and border color, and point
radius, hover radius and hit radius all zero, removing it from hover
targeting; for every axis whose score is non-null, including a score of
exactly zero, it configures point radius 4, hover radius 6 and hit radius
8 with the solid point color. -/
theorem c1_point_styling (chartData : JVal) (cfg : RenderConfig) (i : Nat)
    (hok : render chartData = .ok cfg) (hi : i < cfg.scoreValues.length) :
    (cfg.scoreValues.getD i .undefined = .null →
        cfg.displayValues.getD i .undefined = .num ⟨0, 1⟩ ∧
        cfg.pointColors.getD i [] = jstr "transparent" ∧
        cfg.pointRadii.getD i ⟨99, 1⟩ = ⟨0, 1⟩ ∧
        cfg.pointHoverRadii.getD i ⟨99, 1⟩ = ⟨0, 1⟩ ∧
        cfg.pointHitRadii.getD i ⟨99, 1⟩ = ⟨0, 1⟩) ∧
    (cfg.scoreValues.getD i .undefined ≠ .null →
        cfg.pointColors.getD i [] = COLOR_DATA_POINT ∧
        cfg.pointRadii.getD i ⟨99, 1⟩ = ⟨4, 1⟩ ∧
        cfg.pointHoverRadii.getD i ⟨99, 1⟩ = ⟨6, 1⟩ ∧
        cfg.pointHitRadii.getD i ⟨99, 1⟩ = ⟨8, 1⟩) := by
  obtain ⟨labels, vals, hk, hv, rfl⟩ := render_ok_inv chartData cfg hok
  have hlen : i < vals.length := hi
  constructor
  · intro hnull
    have hns : isNullShape (vals.getD i JVal.undefined) = true := by
      rw [isNullShape_true_iff]
      exact hnull
    refine ⟨?_, ?_, ?_, ?_, ?_⟩
    · show (vals.map fun v => if isNullShape v = true then JVal.num ⟨0, 1⟩ else v).getD i
        JVal.undefined = _
      rw [map_display_getD vals i hlen, if_pos hns]
    · show ((vals.map isNullShape).map fun n =>
        if n = true then jstr "transparent" else COLOR_DATA_POINT).getD i [] = _
      rw [map_if_getD vals i hlen _ _ _, if_pos hns]
    · show ((vals.map isNullShape).map fun n =>
        if n = true then (⟨0, 1⟩ : JNum) else ⟨4, 1⟩).getD i ⟨99, 1⟩ = _
      rw [map_if_getD vals i hlen _ _ _, if_pos hns]
    · show ((vals.map isNullShape).map fun n =>
        if n = true then (⟨0, 1⟩ : JNum) else ⟨6, 1⟩).getD i ⟨99, 1⟩ = _
      rw [map_if_getD vals i hlen _ _ _, if_pos hns]
    · show ((vals.map isNullShape).map fun n =>
        if n = true then (⟨0, 1⟩ : JNum) else ⟨8, 1⟩).getD i ⟨99, 1⟩ = _
      rw [map_if_getD vals i hlen _ _ _, if_pos hns]
  · intro hnn
    have hns : isNullShape (vals.getD i JVal.undefined) = false := by
      rw [isNullShape_false_iff]
      exact hnn
    refine ⟨?_, ?_, ?_, ?_⟩
    · show ((vals.map isNullShape).map fun n =>
        if n = true then jstr "transparent" else COLOR_DATA_POINT).getD i [] = _
      rw [map_if_getD vals i hlen _ _ _, hns]
      simp
    · show ((vals.map isNullShape).map fun n =>
        if n = true then (⟨0, 1⟩ : JNum) else ⟨4, 1⟩).getD i ⟨99, 1⟩ = _
      rw [map_if_getD vals i hlen _ _ _, hns]
      simp
    · show ((vals.map isNullShape).map fun n =>
        if n = true then (⟨0, 1⟩ : JNum) else ⟨6, 1⟩).getD i ⟨99, 1⟩ = _
      rw [map_if_getD vals i hlen _ _ _, hns]
      simp
    · show ((vals.map isNullShape).map fun n =>
        if n = true then (⟨0, 1⟩ : JNum) else ⟨8, 1⟩).getD i ⟨99, 1⟩ = _
      rw [map_if_getD vals i hlen _ _ _, hns]
      simp

/-- C1 witness: on the concrete payload with a null first axis, render
yields display value zero, transparent point color and all-zero radii for
index zero. -/
theorem c1_point_styling_witness :
    (theRender payloadNullZero).displayValues.getD 0 .undefined = .num ⟨0, 1⟩ ∧
    (theRender payloadNullZero).pointColors.getD 0 [] = jstr "transparent" ∧
    (theRender payloadNullZero).pointRadii.getD 0 ⟨99, 1⟩ = ⟨0, 1⟩ ∧
    (theRender payloadNullZero).pointHoverRadii.getD 0 ⟨99, 1⟩ = ⟨0, 1⟩ ∧
    (theRender payloadNullZero).pointHitRadii.getD 0 ⟨99, 1⟩ = ⟨0, 1⟩ :=
  (c1_point_styling payloadNullZero (theRender payloadNullZero) 0 rfl (by decide)).1 rfl

/-- C8: for every payload whose data field is an object with at least one
axis, the axis order used throughout the rendered configuration — the
label sequence, the score sequence, the null-flag sequence, the
display-value sequence and the tooltip index lookups — equals the
insertion order of the keys of the data object. -/
theorem c8_axis_order (chartData : JVal) (kvs : List (JStr × JVal)) (cfg : RenderConfig)
    (hdata : getProp chartData dataKey = .obj kvs) (hne : kvs ≠ [])
    (hok : render chartData = .ok cfg) :
    cfg.labels = kvs.map Prod.fst ∧
    cfg.scoreValues = kvs.map Prod.snd ∧
    cfg.nullFlags = kvs.map (fun kv => isNullShape kv.2) ∧
    cfg.displayValues = kvs.map (fun kv =>
      if isNullShape kv.2 = true then JVal.num ⟨0, 1⟩ else kv.2) ∧
    ∀ i : Nat, ∀ hi : i < kvs.length,
      cfg.tooltipLabel i =
        buildTooltipLabel (kvs.get ⟨i, hi⟩).1 (kvs.get ⟨i, hi⟩).2
          (isNullShape (kvs.get ⟨i, hi⟩).2) cfg.rawData := by
  have hk : objectKeysE (getProp chartData dataKey) = .ok (kvs.map Prod.fst) := by
    rw [hdata]
    rfl
  have hv : objectValuesE (getProp chartData dataKey) = .ok (kvs.map Prod.snd) := by
    rw [hdata]
    rfl
  rw [render_eq_ok chartData _ _ hk hv] at hok
  replace hok := Except.ok.inj hok
  subst hok
  refine ⟨rfl, rfl, ?_, ?_, ?_⟩
  · show (kvs.map Prod.snd).map isNullShape = _
    rw [List.map_map]
    rfl
  · show (kvs.map Prod.snd).map (fun v => if isNullShape v = true then JVal.num ⟨0, 1⟩ else v) = _
    rw [List.map_map]
    rfl
  · intro i hi
    have hlen2 : i < (kvs.map Prod.snd).length := by simpa using hi
    show buildTooltipLabel ((kvs.map Prod.fst).getD i []) ((kvs.map Prod.snd).getD i .undefined)
      (((kvs.map Prod.snd).map isNullShape).getD i false) _ = _
    rw [getD_map_of_lt isNullShape (kvs.map Prod.snd) i hlen2 false JVal.undefined,
      getD_map_of_lt Prod.fst kvs i hi _ ([], JVal.undefined),
      getD_map_of_lt Prod.snd kvs i hi _ ([], JVal.undefined),
      List.getD_eq_getElem kvs _ hi, List.get_eq_getElem]

/-- C8 witness: on the concrete two-axis payload the label order and the
tooltip lookup at index zero follow the key insertion order. -/
theorem c8_axis_order_witness :
    (theRender payloadNullZero).labels = [jstr "A", jstr "B"] ∧
    (theRender payloadNullZero).tooltipLabel 0 =
      buildTooltipLabel (jstr "A") JVal.null (isNullShape JVal.null)
        (theRender payloadNullZero).rawData := by
  have h := c8_axis_order payloadNullZero
    [(jstr "A", JVal.null), (jstr "B", JVal.num ⟨0, 1⟩)] (theRender payloadNullZero) rfl
    (List.cons_ne_nil _ _) rfl
  exact ⟨h.1.trans (by rfl), h.2.2.2.2 0 (by decide)⟩

theorem buildTooltipLabel_isOk (label : JStr) (scoreValue : JVal) (isNull : Bool)
    (rawData : JVal)
    (hscore : isNull = true ∨ isNumShape scoreValue = true)
    (hraw : jsFalsy rawData = true ∨ isObjType rawData = true) :
    (buildTooltipLabel label scoreValue isNull rawData).isOk = true := by
  cases isNull with
  | true => rfl
  | false =>
    obtain ⟨x, rfl⟩ : ∃ x, scoreValue = .num x := by
      rcases hscore with h | h
      · exact absurd h (by simp)
      · cases scoreValue <;> simp_all [isNumShape]
    by_cases hf : jsFalsy rawData = true
    · rw [buildTooltipLabel_num_eq, if_pos hf]
      rfl
    · have hobj : isObjType rawData = true := by
        rcases hraw with h | h
        · exact absurd h hf
        · exact h
      cases rawData with
      | obj fs =>
        rw [buildTooltipLabel_num_tail label x (.obj fs) (fs.any fun kv => kv.1 = label) rfl rfl]
        split
        · rfl
        · split
          · rfl
          · split
            · split
              · rfl
              · rfl
            · split
              · rfl
              · rfl
      | arr xs =>
        rw [buildTooltipLabel_num_tail label x (.arr xs) _ rfl rfl]
        split
        · rfl
        · split
          · rfl
          · split
            · split
              · rfl
              · rfl
            · split
              · rfl
              · rfl
      | null => exact absurd hobj (by simp [isObjType])
      | undefined => exact absurd hobj (by simp [isObjType])
      | bool b => exact absurd hobj (by simp [isObjType])
      | num y => exact absurd hobj (by simp [isObjType])
      | str s => exact absurd hobj (by simp [isObjType])

/-- C9 counterexample: a structurally present payload whose single score
is a string, a wrong value type, makes tooltip building raise a TypeError
from the toFixed call, both at the buildTooltipLabel level and through the
tooltip callback render wires up. -/
theorem c9_no_throw_counterexample :
    buildTooltipLabel (jstr "Fuel") (.str (jstr "high")) false .null = .error () ∧
    (render payloadBadScore).map (fun cfg => cfg.tooltipLabel 0) = .ok (.error ()) :=
  ⟨rfl, rfl⟩

/-- C9 amended: tooltip building never raises provided every score value
is a number or null and the raw data, when truthy, is of object type;
malformed raw entries and metrics never cause a failure. In particular
every tooltip callback of a rendered configuration whose score values are
all numbers or null returns normally. A non-null non-number score value,
however, raises a TypeError. -/
theorem c9_no_throw_amended :
    (∀ (label : JStr) (scoreValue : JVal) (isNull : Bool) (rawData : JVal),
        (isNull = true ∨ isNumShape scoreValue = true) →
        (jsFalsy rawData = true ∨ isObjType rawData = true) →
        (buildTooltipLabel label scoreValue isNull rawData).isOk = true) ∧
    (∀ (chartData : JVal) (cfg : RenderConfig) (i : Nat),
        render chartData = .ok cfg →
        i < cfg.scoreValues.length →
        (∀ v ∈ cfg.scoreValues, (isNullShape v || isNumShape v) = true) →
        (jsFalsy cfg.rawData = true ∨ isObjType cfg.rawData = true) →
        (cfg.tooltipLabel i).isOk = true) := by
  refine ⟨buildTooltipLabel_isOk, fun chartData cfg i hok hi hvals hraw => ?_⟩
  obtain ⟨labels, vals, hk, hv, rfl⟩ := render_ok_inv chartData cfg hok
  have hlen : i < vals.length := hi
  have hmem : vals.getD i JVal.undefined ∈ vals := by
    rw [List.getD_eq_getElem vals _ hlen]
    exact List.getElem_mem _
  have hscore := hvals (vals.getD i JVal.undefined) hmem
  show (buildTooltipLabel (labels.getD i []) (vals.getD i JVal.undefined)
    ((vals.map isNullShape).getD i false) _).isOk = true
  rw [getD_map_of_lt isNullShape vals i hlen false JVal.undefined]
  apply buildTooltipLabel_isOk
  · cases hn : isNullShape (vals.getD i JVal.undefined) with
    | true => exact Or.inl rfl
    | false =>
      right
      rcases (Bool.or_eq_true _ _).mp hscore with h | h
      · exact absurd (hn.symm.trans h) (by simp)
      · exact h
  · exact hraw

/-- C9 witness: on the concrete payload with a null axis and a numeric
zero axis, the tooltip callback at the numeric index returns normally. -/
theorem c9_no_throw_amended_witness :
    ((theRender payloadNullZero).tooltipLabel 1).isOk = true :=
  c9_no_throw_amended.2 payloadNullZero (theRender payloadNullZero) 1 rfl (by decide)
    (by decide) (Or.inl rfl)

/-! Claims C4 and C10: label wrapping. -/

theorem jsSplit_ne_nil (s : JStr) : jsSplit s ≠ [] := by
  cases s with
  | nil => simp [jsSplit]
  | cons c rest =>
    unfold jsSplit
    by_cases hc : c = ' '
    · rw [if_pos hc]
      simp
    · rw [if_neg hc]
      cases h : jsSplit rest <;> simp

theorem mem_jsSplit_no_space (s : JStr) : ∀ w ∈ jsSplit s, ' ' ∉ w := by
  induction s with
  | nil =>
    intro w hw
    simp [jsSplit] at hw
    subst hw
    simp
  | cons c rest ih =>
    intro w hw
    unfold jsSplit at hw
    by_cases hc : c = ' '
    · rw [if_pos hc] at hw
      rcases List.mem_cons.mp hw with rfl | hmem
      · simp
      · exact ih w hmem
    · rw [if_neg hc] at hw
      cases h : jsSplit rest with
      | nil => exact absurd h (jsSplit_ne_nil rest)
      | cons w0 ws0 =>
        rw [h] at hw
        rcases List.mem_cons.mp hw with rfl | hmem
        · intro hsp
          rcases List.mem_cons.mp hsp with h1 | h2
          · exact hc h1.symm
          · exact ih w0 (by rw [h]; exact List.mem_cons_self _ _) h2
        · exact ih w (by rw [h]; exact List.mem_cons_of_mem _ hmem)

theorem jsSplit_cons_space (rest : JStr) : jsSplit (' ' :: rest) = [] :: jsSplit rest := by
  show (if ' ' = ' ' then [] :: jsSplit rest
    else match jsSplit rest with
      | w :: ws => (' ' :: w) :: ws
      | [] => [[' ']]) = _
  rw [if_pos rfl]

theorem jsSplit_cons_ne (c : Char) (rest : JStr) (hc : ¬ c = ' ') :
    jsSplit (c :: rest) =
      match jsSplit rest with
      | w :: ws => (c :: w) :: ws
      | [] => [[c]] := by
  show (if c = ' ' then [] :: jsSplit rest
    else match jsSplit rest with
      | w :: ws => (c :: w) :: ws
      | [] => [[c]]) = _
  rw [if_neg hc]

theorem jsSplit_append_space (a b : JStr) :
    jsSplit (a ++ ' ' :: b) = jsSplit a ++ jsSplit b := by
  induction a with
  | nil => simp [jsSplit]
  | cons c a2 ih =>
    by_cases hc : c = ' '
    · subst hc
      rw [List.cons_append, jsSplit_cons_space, jsSplit_cons_space, ih, List.cons_append]
    · cases h : jsSplit a2 with
      | nil => exact absurd h (jsSplit_ne_nil a2)
      | cons w ws =>
        rw [List.cons_append, jsSplit_cons_ne c _ hc, jsSplit_cons_ne c _ hc, ih, h,
          List.cons_append]
        rfl

theorem jsSplit_spaceless (w : JStr) (h : ' ' ∉ w) : jsSplit w = [w] := by
  induction w with
  | nil => rfl
  | cons c rest ih =>
    have hc : ¬ c = ' ' := fun hh => h (by rw [hh]; exact List.mem_cons_self _ _)
    have hrest : ' ' ∉ rest := fun hh => h (List.mem_cons_of_mem _ hh)
    unfold jsSplit
    rw [if_neg hc, ih hrest]

theorem joinSp_cons (w : JStr) (ws : List JStr) :
    joinSp (w :: ws) = w ++ ws.flatMap (fun u => ' ' :: u) := by
  induction ws generalizing w with
  | nil => simp [joinSp]
  | cons y ys ih =>
    have h1 : joinSp (w :: y :: ys) = w ++ ' ' :: joinSp (y :: ys) := rfl
    rw [h1, ih]
    simp

theorem joinSp_append_singleton (xs : List JStr) (y : JStr) (h : xs ≠ []) :
    joinSp (xs ++ [y]) = joinSp xs ++ ' ' :: y := by
  cases xs with
  | nil => exact absurd rfl h
  | cons x xs2 =>
    rw [List.cons_append, joinSp_cons, joinSp_cons]
    simp

theorem joinSp_append_last (xs : List JStr) (a b : JStr) :
    joinSp (xs ++ [a ++ b]) = joinSp (xs ++ [a]) ++ b := by
  cases xs with
  | nil => rfl
  | cons x xs2 =>
    rw [List.cons_append, List.cons_append, joinSp_cons, joinSp_cons]
    simp

theorem joinSp_jsSplit (s : JStr) : joinSp (jsSplit s) = s := by
  induction s with
  | nil => rfl
  | cons c rest ih =>
    by_cases hc : c = ' '
    · subst hc
      rw [jsSplit_cons_space]
      cases h : jsSplit rest with
      | nil => exact absurd h (jsSplit_ne_nil rest)
      | cons w ws =>
        calc joinSp ([] :: w :: ws) = ' ' :: joinSp (w :: ws) := rfl
          _ = ' ' :: joinSp (jsSplit rest) := by rw [h]
          _ = ' ' :: rest := by rw [ih]
    · rw [jsSplit_cons_ne c rest hc]
      cases h : jsSplit rest with
      | nil => exact absurd h (jsSplit_ne_nil rest)
      | cons w ws =>
        show joinSp ((c :: w) :: ws) = c :: rest
        cases ws with
        | nil =>
          have hw : w = rest := by
            have h3 := ih
            rw [h] at h3
            exact h3
          show c :: w = c :: rest
          rw [hw]
        | cons w2 ws2 =>
          have hj : joinSp ((c :: w) :: w2 :: ws2) = (c :: w) ++ ' ' :: joinSp (w2 :: ws2) := rfl
          have hj2 : joinSp (w :: w2 :: ws2) = w ++ ' ' :: joinSp (w2 :: ws2) := rfl
          have h3 := ih
          rw [h, hj2] at h3
          rw [hj, List.cons_append, h3]

theorem wordsOf_nil : wordsOf [] = [] := rfl

theorem wordsOf_append_space (a b : JStr) :
    wordsOf (a ++ ' ' :: b) = wordsOf a ++ wordsOf b := by
  unfold wordsOf
  rw [jsSplit_append_space, List.filter_append]

theorem wrapCandidate_wordsOf (line w : JStr) :
    wordsOf (wrapCandidate line w) = wordsOf line ++ wordsOf w := by
  unfold wrapCandidate
  split
  · rename_i h
    rw [List.isEmpty_iff.mp h]
    rw [wordsOf_nil, List.nil_append]
  · exact wordsOf_append_space line w

theorem flatMap_wordsOf_of_spaceless (ws : List JStr) (h : ∀ w ∈ ws, ' ' ∉ w) :
    ws.flatMap wordsOf = ws.filter (fun w => !w.isEmpty) := by
  induction ws with
  | nil => rfl
  | cons w rest ih =>
    have hw : ' ' ∉ w := h w (List.mem_cons_self _ _)
    have hr : ∀ u ∈ rest, ' ' ∉ u := fun u hu => h u (List.mem_cons_of_mem _ hu)
    rw [List.flatMap_cons, List.filter_cons, ih hr]
    have hww : wordsOf w = (jsSplit w).filter (fun u => !u.isEmpty) := rfl
    rw [hww, jsSplit_spaceless w hw]
    cases he : w.isEmpty with
    | true =>
      rw [List.isEmpty_iff.mp he]
      simp
    | false => simp [he]

theorem flatMap_wordsOf_jsSplit (s : JStr) : (jsSplit s).flatMap wordsOf = wordsOf s := by
  rw [flatMap_wordsOf_of_spaceless (jsSplit s) (mem_jsSplit_no_space s)]
  rfl

theorem wrapStep_push (st : List JStr × JStr) (w : JStr)
    (hc : (wrapCandidate st.2 w).length > MAX_LABEL_CHARS ∧ ¬ st.2.isEmpty = true) :
    wrapStep st w = (st.1 ++ [st.2], w) := by
  unfold wrapStep
  rw [if_pos hc]

theorem wrapStep_keep (st : List JStr × JStr) (w : JStr)
    (hc : ¬((wrapCandidate st.2 w).length > MAX_LABEL_CHARS ∧ ¬ st.2.isEmpty = true)) :
    wrapStep st w = (st.1, wrapCandidate st.2 w) := by
  unfold wrapStep
  rw [if_neg hc]

theorem wrapFold_lineOK : ∀ ws : List JStr, (∀ w ∈ ws, ' ' ∉ w) →
    ∀ st : List JStr × JStr, (∀ l ∈ st.1, lineOK l) → lineOK st.2 →
      (∀ l ∈ (ws.foldl wrapStep st).1, lineOK l) ∧ lineOK (ws.foldl wrapStep st).2 := by
  intro ws
  induction ws with
  | nil => exact fun _ st h1 h2 => ⟨h1, h2⟩
  | cons w rest ih =>
    intro hws st h1 h2
    have hw : ' ' ∉ w := hws w (List.mem_cons_self _ _)
    have hrest : ∀ u ∈ rest, ' ' ∉ u := fun u hu => hws u (List.mem_cons_of_mem _ hu)
    rw [List.foldl_cons]
    by_cases hc : (wrapCandidate st.2 w).length > MAX_LABEL_CHARS ∧ ¬ st.2.isEmpty = true
    · rw [wrapStep_push st w hc]
      refine ih hrest _ ?_ (Or.inr hw)
      intro l hl
      rcases List.mem_append.mp hl with h | h
      · exact h1 l h
      · rw [List.mem_singleton.mp h]
        exact h2
    · rw [wrapStep_keep st w hc]
      refine ih hrest _ h1 ?_
      unfold wrapCandidate
      by_cases he : st.2.isEmpty = true
      · rw [if_pos he]
        exact Or.inr hw
      · rw [if_neg he]
        left
        by_contra hlen
        exact hc ⟨by
          have := Nat.not_le.mp hlen
          unfold wrapCandidate
          rw [if_neg he]
          exact this, he⟩

theorem wrapFold_words : ∀ (ws : List JStr) (st : List JStr × JStr),
    ((ws.foldl wrapStep st).1.flatMap wordsOf) ++ wordsOf (ws.foldl wrapStep st).2 =
      (st.1.flatMap wordsOf) ++ wordsOf st.2 ++ ws.flatMap wordsOf := by
  intro ws
  induction ws with
  | nil => intro st; simp
  | cons w rest ih =>
    intro st
    rw [List.foldl_cons]
    by_cases hc : (wrapCandidate st.2 w).length > MAX_LABEL_CHARS ∧ ¬ st.2.isEmpty = true
    · rw [wrapStep_push st w hc, ih]
      show ((st.1 ++ [st.2]).flatMap wordsOf) ++ wordsOf w ++ rest.flatMap wordsOf = _
      rw [List.flatMap_append, List.flatMap_cons]
      simp
    · rw [wrapStep_keep st w hc, ih]
      show st.1.flatMap wordsOf ++ wordsOf (wrapCandidate st.2 w) ++ rest.flatMap wordsOf = _
      rw [wrapCandidate_wordsOf, List.flatMap_cons]
      simp

theorem wrapFold_join : ∀ ws : List JStr, (∀ w ∈ ws, w ≠ []) →
    ∀ st : List JStr × JStr, st.2 ≠ [] →
      (ws.foldl wrapStep st).2 ≠ [] ∧
      joinSp ((ws.foldl wrapStep st).1 ++ [(ws.foldl wrapStep st).2]) =
        joinSp (st.1 ++ [st.2]) ++ ws.flatMap (fun u => ' ' :: u) := by
  intro ws
  induction ws with
  | nil => exact fun _ st h2 => ⟨h2, by simp⟩
  | cons w rest ih =>
    intro hws st h2
    have hw : w ≠ [] := hws w (List.mem_cons_self _ _)
    have hrest : ∀ u ∈ rest, u ≠ [] := fun u hu => hws u (List.mem_cons_of_mem _ hu)
    rw [List.foldl_cons]
    by_cases hc : (wrapCandidate st.2 w).length > MAX_LABEL_CHARS ∧ ¬ st.2.isEmpty = true
    · rw [wrapStep_push st w hc]
      obtain ⟨hne, hj⟩ := ih hrest (st.1 ++ [st.2], w) hw
      refine ⟨hne, ?_⟩
      rw [hj]
      show joinSp ((st.1 ++ [st.2]) ++ [w]) ++ _ = _
      rw [joinSp_append_singleton (st.1 ++ [st.2]) w (by simp), List.flatMap_cons]
      simp
    · rw [wrapStep_keep st w hc]
      have hcand : wrapCandidate st.2 w = st.2 ++ ' ' :: w := by
        unfold wrapCandidate
        rw [if_neg (by simpa [List.isEmpty_iff] using h2)]
      have hcne : wrapCandidate st.2 w ≠ [] := by
        rw [hcand]
        simp
      obtain ⟨hne, hj⟩ := ih hrest (st.1, wrapCandidate st.2 w) hcne
      refine ⟨hne, ?_⟩
      rw [hj]
      show joinSp (st.1 ++ [wrapCandidate st.2 w]) ++ _ = _
      rw [hcand, joinSp_append_last st.1 st.2 (' ' :: w), List.flatMap_cons]
      simp

/-- C4: wrapLabel returns the text unchanged whenever its length is within
the limit; otherwise it returns the ordered lines of greedy word packing,
in which every line is within the limit except a line consisting of a
single word longer than the limit, and no word is ever dropped,
duplicated, reordered or split mid-word; in particular the composite label
wraps to two lines and a short label passes through unchanged. -/
theorem c4_wrap_label :
    (∀ text : JStr, text.length ≤ MAX_LABEL_CHARS → wrapPointLabel text = .one text) ∧
    (∀ (text : JStr) (ls : List JStr), wrapPointLabel text = .many ls →
        ∀ l ∈ ls, l.length ≤ MAX_LABEL_CHARS ∨ ' ' ∉ l) ∧
    (∀ (text : JStr) (ls : List JStr), wrapPointLabel text = .many ls →
        ls.flatMap wordsOf = wordsOf text) ∧
    wrapPointLabel (jstr "Critical Infrastructure") =
      .many [jstr "Critical", jstr "Infrastructure"] ∧
    wrapPointLabel (jstr "Fuel") = .one (jstr "Fuel") := by
  refine ⟨fun text h => ?_, fun text ls h => ?_, fun text ls h => ?_, rfl, rfl⟩
  · unfold wrapPointLabel
    rw [if_pos h]
  · unfold wrapPointLabel at h
    by_cases hlen : text.length ≤ MAX_LABEL_CHARS
    · rw [if_pos hlen] at h
      exact StrOrLines.noConfusion h
    · rw [if_neg hlen] at h
      replace h := StrOrLines.many.inj h
      subst h
      obtain ⟨hA, hB⟩ := wrapFold_lineOK (jsSplit text) (mem_jsSplit_no_space text) ([], [])
        (by simp) (Or.inl (by simp [MAX_LABEL_CHARS]))
      intro l hl
      by_cases he : ((jsSplit text).foldl wrapStep ([], [])).2.isEmpty = true
      · rw [if_pos he] at hl
        exact hA l hl
      · rw [if_neg he] at hl
        rcases List.mem_append.mp hl with h | hsing
        · exact hA l h
        · rw [List.mem_singleton.mp hsing]
          exact hB
  · unfold wrapPointLabel at h
    by_cases hlen : text.length ≤ MAX_LABEL_CHARS
    · rw [if_pos hlen] at h
      exact StrOrLines.noConfusion h
    · rw [if_neg hlen] at h
      replace h := StrOrLines.many.inj h
      subst h
      have hw := wrapFold_words (jsSplit text) ([], [])
      rw [flatMap_wordsOf_jsSplit] at hw
      simp only [List.flatMap_nil, wordsOf_nil, List.nil_append, List.append_nil] at hw
      by_cases he : ((jsSplit text).foldl wrapStep ([], [])).2.isEmpty = true
      · rw [if_pos he]
        have h2 : wordsOf ((jsSplit text).foldl wrapStep ([], [])).2 = [] := by
          rw [List.isEmpty_iff.mp he]
          exact wordsOf_nil
        rw [h2, List.append_nil] at hw
        exact hw
      · rw [if_neg he, List.flatMap_append, List.flatMap_cons, List.flatMap_nil,
          List.append_nil]
        exact hw

/-- C4 witness: the short label passes through unchanged, and the words of
the wrapped composite label reconstruct the words of the original text. -/
theorem c4_wrap_label_witness :
    wrapPointLabel (jstr "Fuel") = .one (jstr "Fuel") ∧
    [jstr "Critical", jstr "Infrastructure"].flatMap wordsOf =
      wordsOf (jstr "Critical Infrastructure") :=
  ⟨c4_wrap_label.1 (jstr "Fuel") (by decide),
    c4_wrap_label.2.2.1 (jstr "Critical Infrastructure")
      [jstr "Critical", jstr "Infrastructure"] c4_wrap_label.2.2.2.1⟩

/-- C10: for every text longer than the limit in which splitting on spaces
yields only nonempty words, joining the lines returned by wrapLabel with
single spaces reconstructs the text exactly — no word is dropped,
duplicated, reordered or split across lines. -/
theorem c10_wrap_roundtrip (text : JStr) (h1 : MAX_LABEL_CHARS < text.length)
    (h2 : ∀ w ∈ jsSplit text, w ≠ []) :
    joinSp (linesOf (wrapPointLabel text)) = text := by
  unfold wrapPointLabel
  rw [if_neg (Nat.not_le.mpr h1)]
  simp only [linesOf]
  cases hs : jsSplit text with
  | nil => exact absurd hs (jsSplit_ne_nil text)
  | cons w rest =>
    have hw : w ≠ [] := h2 w (by rw [hs]; exact List.mem_cons_self _ _)
    have hrest : ∀ u ∈ rest, u ≠ [] := fun u hu => h2 u (by rw [hs]; exact List.mem_cons_of_mem _ hu)
    rw [List.foldl_cons]
    have hstep : wrapStep ([], []) w = ([], w) := by
      unfold wrapStep
      rw [if_neg (fun hcc => hcc.2 rfl)]
      rfl
    rw [hstep]
    obtain ⟨hne, hj⟩ := wrapFold_join rest hrest ([], w) hw
    have he : (rest.foldl wrapStep ([], w)).2.isEmpty = false := by
      cases hee : (rest.foldl wrapStep ([], w)).2.isEmpty
      · rfl
      · exact absurd (List.isEmpty_iff.mp hee) hne
    rw [if_neg (by simp [he])]
    rw [hj]
    show joinSp [w] ++ rest.flatMap (fun u => ' ' :: u) = text
    have hjw : joinSp [w] = w := rfl
    rw [hjw, ← joinSp_cons w rest, ← hs, joinSp_jsSplit]

/-- C10 witness: the composite label reconstructs exactly after
wrapping. -/
theorem c10_wrap_roundtrip_witness :
    joinSp (linesOf (wrapPointLabel (jstr "Critical Infrastructure"))) =
      jstr "Critical Infrastructure" :=
  c10_wrap_roundtrip (jstr "Critical Infrastructure") (by decide) (by decide)

end WfVar
